import Mathlib

/-!
Verification of the slack-go-webhook module (final revision of the source:
the variant with StartTicker/StopTicker and the done channel).

Modelling conventions:
* Go `time.Duration` is int64 nanoseconds; durations are modelled as `Int`
  with explicit 64-bit wraparound `i64` applied exactly where Go's int64
  arithmetic can overflow.
* The HTTP endpoint is modelled as a finite script of responses consumed by
  the retry loop of `Send`; running out of script models a transport-level
  failure of `HttpClient.Do` (returned as a single error, no retry).
* Go's `map[int]int` status tally is modelled as an association list.
* Go's `encoding/json` marshalling of the payload structs is modelled on a
  small JSON value type, field by field: `omitempty` scalar fields of
  `Payload` drop the member at the zero value, the pointer fields of
  `Attachment` (no `omitempty`) always emit the member and marshal a nil
  pointer or nil slice as `null`.
-/

namespace Slack

/-- Go `time.Second` expressed in nanoseconds. -/
def second : Int := 1000000000

/-- Two's-complement wraparound of Go int64 arithmetic. -/
def i64 (x : Int) : Int := (x + 2 ^ 63) % 2 ^ 64 - 2 ^ 63

/-- Go source (slack.go):
```
func MinDuration(vars ...time.Duration) time.Duration {
    min := vars[0]
    for _, i := range vars { if min > i { min = i } }
    return min
}
```
`none` models the index-out-of-range panic of `vars[0]` on an empty slice. -/
def MinDuration : List Int → Option Int
  | [] => none
  | v :: vs => some ((v :: vs).foldl (fun m i => if m > i then i else m) v)

/-- Go source (slack.go): same loop as `MinDuration` with the comparison
`max < i` and `none` again modelling the panic on an empty argument list. -/
def MaxDuration : List Int → Option Int
  | [] => none
  | v :: vs => some ((v :: vs).foldl (fun m i => if m < i then i else m) v)

/-- Model of Go `strconv.Atoi`: an optional sign followed by one or more
decimal digits; any other character fails, and a value outside the int64
range yields a range error (both modelled as `none`, which is all the caller
`Send` observes: it checks `err != nil`). -/
def goAtoi (s : String) : Option Int :=
  let core : Int → List Char → Option Int := fun sign ds =>
    if ds = [] then none
    else if ds.all Char.isDigit then
      let v : Int := sign * ((ds.foldl (fun a c => a * 10 + (c.toNat - 48)) 0 : Nat) : Int)
      if -(2 ^ 63) ≤ v ∧ v < 2 ^ 63 then some v else none
    else none
  match s.data with
  | '-' :: r => core (-1) r
  | '+' :: r => core 1 r
  | r => core 1 r

/-- One HTTP response as observed by `Send`: the status code and the value of
the Retry-After header, with `""` modelling an absent header exactly as Go's
`resp.Header.Get("Retry-After")` returns `""` when the header is missing. -/
structure HttpResponse where
  statusCode : Int
  retryAfter : String
deriving DecidableEq

/-- The error values `Send` can return (it always returns a singleton list or
nil): the Retry-After parse failure, the status error for codes >= 400 other
than 429, and a transport-level failure of `HttpClient.Do`. -/
inductive SendError where
  | retryAfterParse (header : String)
  | httpStatus (code : Int)
  | transport
deriving DecidableEq

/-- Observable outcome of the retry loop of `Send`: the returned error list,
the number of requests that received a response, the value of the shared
`StatusCodeRetryInterval` when the loop exits, and how many times the
grow (429) and shrink (success) updates ran. -/
structure SendResult where
  errors : List SendError
  requests : Nat
  interval : Int
  grows : Nat
  shrinks : Nat
deriving DecidableEq

/-- The retry loop of `Send` (slack.go lines 139-178), instrumented with
request/grow/shrink counters.  `inc` and `dec` are the package variables
`StatusCodeRetryIntervalIncrement` and `StatusCodeRetryIntervalDecrement`,
`cur` the shared `StatusCodeRetryInterval`.  Each consumed response is one
loop iteration:
* status 429 with a non-empty Retry-After header: parse it; on failure return
  the singleton parse error, otherwise set the interval to
  `MinDuration(time.Duration(n)*time.Second, cur+inc)` and loop;
* status 429 with the header absent: set the interval to
  `MinDuration(4*time.Second, cur+inc)` and loop;
* any other status >= 400: return the singleton status error;
* status < 400: set the interval to `MaxDuration(0, cur-dec)` and return nil.
Multiplication and addition of int64 durations wrap via `i64`; the `getD 0`
is dead code since `MinDuration`/`MaxDuration` are `some` on the two-element
lists used here.  An exhausted script models `HttpClient.Do` failing, which
the code returns as a singleton error without another iteration. -/
def sendLoop (inc dec : Int) : List HttpResponse → Int → SendResult
  | [], cur => ⟨[SendError.transport], 0, cur, 0, 0⟩
  | r :: rest, cur =>
    if r.statusCode = 429 then
      if r.retryAfter ≠ "" then
        match goAtoi r.retryAfter with
        | none => ⟨[SendError.retryAfterParse r.retryAfter], 1, cur, 0, 0⟩
        | some n =>
          let res := sendLoop inc dec rest
            ((MinDuration [i64 (n * second), i64 (cur + inc)]).getD 0)
          ⟨res.errors, res.requests + 1, res.interval, res.grows + 1, res.shrinks⟩
      else
        let res := sendLoop inc dec rest
          ((MinDuration [4 * second, i64 (cur + inc)]).getD 0)
        ⟨res.errors, res.requests + 1, res.interval, res.grows + 1, res.shrinks⟩
    else if 400 ≤ r.statusCode then
      ⟨[SendError.httpStatus r.statusCode], 1, cur, 0, 0⟩
    else
      ⟨[], 1, (MaxDuration [0, i64 (cur - dec)]).getD 0, 0, 1⟩

/-- A small JSON value type for modelling `encoding/json` output. -/
inductive Json where
  | null
  | str (s : String)
  | num (n : Int)
  | boolean (b : Bool)
  | arr (elems : List Json)
  | obj (members : List (String × Json))

/-- The keys of a JSON object, in emission order. -/
def jsonKeys : Json → List String
  | Json.obj members => members.map Prod.fst
  | _ => []

/-- First member of a JSON object with the given key, if any. -/
def jsonLookup (j : Json) (key : String) : Option Json :=
  match j with
  | Json.obj members => (members.find? (fun m => m.fst == key)).map Prod.snd
  | _ => none

/-- Go struct Field with tags `title`, `value`, `short` (no omitempty). -/
structure Field where
  Title : String
  Value : String
  Short : Bool
deriving DecidableEq

/-- Go struct Action with tags `type`, `text`, `url`, `style` (no omitempty).
The Go field `Type` is spelled `Typ` here because `Type` is reserved in Lean. -/
structure Action where
  Typ : String
  Text : String
  Url : String
  Style : String
deriving DecidableEq

/-- Go struct Attachment: every field is pointer-typed or a slice of
pointers, and none carries `omitempty`.  A nil pointer is `none`; the
`Fields`/`Actions` slices are `Option (List _)` with `none` for a nil slice
(which `encoding/json` marshals as `null`, unlike an empty non-nil slice). -/
structure Attachment where
  Fallback : Option String
  Color : Option String
  PreText : Option String
  AuthorName : Option String
  AuthorLink : Option String
  AuthorIcon : Option String
  Title : Option String
  TitleLink : Option String
  Text : Option String
  ImageUrl : Option String
  Fields : Option (List Field)
  Footer : Option String
  FooterIcon : Option String
  Timestamp : Option Int
  MarkdownIn : Option (List String)
  Actions : Option (List Action)
  CallbackID : Option String
  ThumbnailUrl : Option String
deriving DecidableEq

/-- The zero value `Attachment{}` of Go: every pointer and slice is nil. -/
def emptyAttachment : Attachment :=
  ⟨none, none, none, none, none, none, none, none, none,
   none, none, none, none, none, none, none, none, none⟩

/-- Go struct Payload: scalar fields, all tagged `omitempty`. -/
structure Payload where
  Parse : String
  Username : String
  IconUrl : String
  IconEmoji : String
  Channel : String
  Text : String
  LinkNames : String
  Attachments : List Attachment
  UnfurlLinks : Bool
  UnfurlMedia : Bool
  Markdown : Bool
deriving DecidableEq

/-- Go source: `attachment.Fields = append(attachment.Fields, &field)`.
Appending to a nil slice yields a one-element slice, so `none` becomes
`some [f]`. -/
def AddField (a : Attachment) (f : Field) : Attachment :=
  { a with Fields := some (a.Fields.getD [] ++ [f]) }

/-- Go source: `attachment.Actions = append(attachment.Actions, &action)`. -/
def AddAction (a : Attachment) (act : Action) : Attachment :=
  { a with Actions := some (a.Actions.getD [] ++ [act]) }

/-- Marshalling of a `*Field` (always reached through a non-nil pointer). -/
def marshalField (f : Field) : Json :=
  Json.obj [("title", Json.str f.Title), ("value", Json.str f.Value),
    ("short", Json.boolean f.Short)]

/-- Marshalling of a `*Action`. -/
def marshalAction (a : Action) : Json :=
  Json.obj [("type", Json.str a.Typ), ("text", Json.str a.Text),
    ("url", Json.str a.Url), ("style", Json.str a.Style)]

/-- A nil pointer (or nil slice) marshals as `null`, anything else through
the element marshaller — the `encoding/json` behavior for fields without
`omitempty`. -/
def jNullable (f : α → Json) : Option α → Json
  | none => Json.null
  | some x => f x

/-- Marshalling of an Attachment: every member is always emitted, in Go
declaration order, with nil pointers and nil slices as explicit `null`. -/
def marshalAttachment (a : Attachment) : Json :=
  Json.obj [
    ("fallback", jNullable Json.str a.Fallback),
    ("color", jNullable Json.str a.Color),
    ("pretext", jNullable Json.str a.PreText),
    ("author_name", jNullable Json.str a.AuthorName),
    ("author_link", jNullable Json.str a.AuthorLink),
    ("author_icon", jNullable Json.str a.AuthorIcon),
    ("title", jNullable Json.str a.Title),
    ("title_link", jNullable Json.str a.TitleLink),
    ("text", jNullable Json.str a.Text),
    ("image_url", jNullable Json.str a.ImageUrl),
    ("fields", jNullable (fun fs => Json.arr (fs.map marshalField)) a.Fields),
    ("footer", jNullable Json.str a.Footer),
    ("footer_icon", jNullable Json.str a.FooterIcon),
    ("ts", jNullable Json.num a.Timestamp),
    ("mrkdwn_in", jNullable (fun l => Json.arr (l.map Json.str)) a.MarkdownIn),
    ("actions", jNullable (fun l => Json.arr (l.map marshalAction)) a.Actions),
    ("callback_id", jNullable Json.str a.CallbackID),
    ("thumb_url", jNullable Json.str a.ThumbnailUrl)]

/-- An `omitempty` string member: dropped entirely at the zero value. -/
def omitStr (key : String) (v : String) : List (String × Json) :=
  if v = "" then [] else [(key, Json.str v)]

/-- An `omitempty` bool member: dropped entirely at `false`. -/
def omitBool (key : String) (v : Bool) : List (String × Json) :=
  if v = false then [] else [(key, Json.boolean v)]

/-- Marshalling of a Payload: every field carries `omitempty`, so zero-valued
scalars and an empty attachment list produce no member at all. -/
def marshalPayload (p : Payload) : Json :=
  Json.obj (omitStr "parse" p.Parse ++ omitStr "username" p.Username ++
    omitStr "icon_url" p.IconUrl ++ omitStr "icon_emoji" p.IconEmoji ++
    omitStr "channel" p.Channel ++ omitStr "text" p.Text ++
    omitStr "link_names" p.LinkNames ++
    (if p.Attachments = [] then []
     else [("attachments", Json.arr (p.Attachments.map marshalAttachment))]) ++
    omitBool "unfurl_links" p.UnfurlLinks ++
    omitBool "unfurl_media" p.UnfurlMedia ++
    omitBool "mrkdwn" p.Markdown)

/-- Go source (slack.go): `for code := range statusCodeMap { statusCodeMap[code] = 0 }`,
on the tally modelled as an association list. -/
def resetStatusCodes (m : List (Int × Nat)) : List (Int × Nat) :=
  m.map (fun p => (p.1, 0))

/-- Go source (slack.go): insert 1 for an unseen code, otherwise increment. -/
def incrementStatusCode (code : Int) (m : List (Int × Nat)) : List (Int × Nat) :=
  if m.any (fun p => p.1 == code) then
    m.map (fun p => if p.1 == code then (p.1, p.2 + 1) else p)
  else m ++ [(code, 1)]

/-- What a call to StopTicker does, observationally. -/
inductive StopOutcome where
  | panicNilDeref
  | stopped
deriving DecidableEq

/-- Go source (slack.go):
```
func StopTicker() {
    log.Printf(...)
    statusCodeTicker.Stop()
    statusCodeTickerDone <- true
}
```
`statusCodeTicker` is a package-level `*time.Ticker`, nil until `StartTicker`
has run; `(*time.Ticker).Stop` dereferences the receiver, so calling
`StopTicker` while the ticker is nil crashes with a nil-pointer fault. -/
def StopTicker (statusCodeTicker : Option Unit) : StopOutcome :=
  match statusCodeTicker with
  | none => StopOutcome.panicNilDeref
  | some _ => StopOutcome.stopped

/-- The Idle state: package initialization leaves `statusCodeTicker` nil. -/
def idleTicker : Option Unit := none

theorem i64_eq_self {x : Int} (h1 : -(2 ^ 63) ≤ x) (h2 : x < 2 ^ 63) : i64 x = x := by
  unfold i64
  rw [Int.emod_eq_of_lt (by omega) (by omega)]
  omega

theorem foldl_min_mem (vs : List Int) (v : Int) :
    vs.foldl (fun m i => if m > i then i else m) v ∈ v :: vs := by
  induction vs generalizing v with
  | nil => simp
  | cons w ws ih =>
    simp only [List.foldl_cons]
    rcases List.mem_cons.mp (ih (if v > w then w else v)) with h1 | h1
    · rw [h1]
      split <;> simp
    · simp [h1]

theorem foldl_min_le (vs : List Int) (v : Int) :
    vs.foldl (fun m i => if m > i then i else m) v ≤ v ∧
      ∀ x ∈ vs, vs.foldl (fun m i => if m > i then i else m) v ≤ x := by
  induction vs generalizing v with
  | nil => simp
  | cons w ws ih =>
    obtain ⟨h1, h2⟩ := ih (if v > w then w else v)
    simp only [List.foldl_cons]
    refine ⟨le_trans h1 (by split <;> omega), ?_⟩
    intro x hx
    rcases List.mem_cons.mp hx with rfl | hx
    · exact le_trans h1 (by split <;> omega)
    · exact h2 x hx

theorem foldl_max_mem (vs : List Int) (v : Int) :
    vs.foldl (fun m i => if m < i then i else m) v ∈ v :: vs := by
  induction vs generalizing v with
  | nil => simp
  | cons w ws ih =>
    simp only [List.foldl_cons]
    rcases List.mem_cons.mp (ih (if v < w then w else v)) with h1 | h1
    · rw [h1]
      split <;> simp
    · simp [h1]

theorem foldl_max_ge (vs : List Int) (v : Int) :
    v ≤ vs.foldl (fun m i => if m < i then i else m) v ∧
      ∀ x ∈ vs, x ≤ vs.foldl (fun m i => if m < i then i else m) v := by
  induction vs generalizing v with
  | nil => simp
  | cons w ws ih =>
    obtain ⟨h1, h2⟩ := ih (if v < w then w else v)
    simp only [List.foldl_cons]
    refine ⟨le_trans (by split <;> omega) h1, ?_⟩
    intro x hx
    rcases List.mem_cons.mp hx with rfl | hx
    · exact le_trans (by split <;> omega) h1
    · exact h2 x hx

theorem minDuration_pair (a b : Int) : MinDuration [a, b] = some (min a b) := by
  simp only [MinDuration, List.foldl_cons, List.foldl_nil]
  congr 1
  have h : ¬a > a := lt_irrefl a
  rw [if_neg h]
  rcases le_or_lt a b with h1 | h1
  · rw [if_neg (by omega), min_eq_left h1]
  · rw [if_pos (by omega), min_eq_right (le_of_lt h1)]

theorem maxDuration_pair (a b : Int) : MaxDuration [a, b] = some (max a b) := by
  simp only [MaxDuration, List.foldl_cons, List.foldl_nil]
  congr 1
  have h : ¬a < a := lt_irrefl a
  rw [if_neg h]
  rcases le_or_lt b a with h1 | h1
  · rw [if_neg (by omega), max_eq_left h1]
  · rw [if_pos (by omega), max_eq_right (le_of_lt h1)]

/-- C10: on a non-empty argument list, `MinDuration` returns the least element
and `MaxDuration` the greatest element of the list; on the empty list both
panic with an index-out-of-range (modelled as `none`), so a non-empty argument
list is an unstated precondition of both exported functions. -/
theorem minMaxDuration_spec (v : Int) (vs : List Int) :
    (∃ m, MinDuration (v :: vs) = some m ∧ m ∈ v :: vs ∧ ∀ x ∈ v :: vs, m ≤ x) ∧
    (∃ M, MaxDuration (v :: vs) = some M ∧ M ∈ v :: vs ∧ ∀ x ∈ v :: vs, x ≤ M) ∧
    MinDuration [] = none ∧ MaxDuration [] = none := by
  refine ⟨⟨_, rfl, ?_, ?_⟩, ⟨_, rfl, ?_, ?_⟩, rfl, rfl⟩
  · rcases List.mem_cons.mp (foldl_min_mem (v :: vs) v) with h | h
    · simp [h]
    · exact h
  · intro x hx
    exact (foldl_min_le (v :: vs) v).2 x hx
  · rcases List.mem_cons.mp (foldl_max_mem (v :: vs) v) with h | h
    · simp [h]
    · exact h
  · intro x hx
    exact (foldl_max_ge (v :: vs) v).2 x hx

theorem minMaxDuration_spec_witness :
    (∃ m, MinDuration [3, 1, 2] = some m ∧ m ∈ [3, 1, 2] ∧ ∀ x ∈ [3, 1, 2], m ≤ x) ∧
    (∃ M, MaxDuration [3, 1, 2] = some M ∧ M ∈ [3, 1, 2] ∧ ∀ x ∈ [3, 1, 2], x ≤ M) ∧
    MinDuration [] = none ∧ MaxDuration [] = none :=
  minMaxDuration_spec 3 [1, 2]

/-- C5: when the first response has a status >= 400 other than 429, `Send`
issues exactly one request, applies no backoff shrink (and no grow, leaving
the interval untouched), and returns exactly one error carrying that status
code; the rest of the script is never consumed. -/
theorem send_status_error_terminal (inc dec cur s : Int) (hdr : String)
    (rest : List HttpResponse) (h4 : 400 ≤ s) (h429 : s ≠ 429) :
    sendLoop inc dec (⟨s, hdr⟩ :: rest) cur =
      ⟨[SendError.httpStatus s], 1, cur, 0, 0⟩ := by
  simp [sendLoop, h429, h4]

theorem send_status_error_terminal_witness :
    (400 : Int) ≤ 500 ∧ (500 : Int) ≠ 429 ∧
      sendLoop 100 1 [⟨500, ""⟩] 50 = ⟨[SendError.httpStatus 500], 1, 50, 0, 0⟩ :=
  ⟨by decide, by decide,
    send_status_error_terminal 100 1 50 500 "" [] (by decide) (by decide)⟩

/-- C4: a 429 response whose Retry-After header is present but not an
integer makes `Send` return exactly one error (the parse failure) with no
further request: the rest of the script is never consumed, and no grow or
shrink update runs. -/
theorem send_retryAfter_parse_error (inc dec cur : Int) (hdr : String)
    (rest : List HttpResponse) (hne : hdr ≠ "") (hp : goAtoi hdr = none) :
    sendLoop inc dec (⟨429, hdr⟩ :: rest) cur =
      ⟨[SendError.retryAfterParse hdr], 1, cur, 0, 0⟩ := by
  simp [sendLoop, hne, hp]

theorem send_retryAfter_parse_error_witness :
    "not-a-number" ≠ "" ∧ goAtoi "not-a-number" = none ∧
      sendLoop 100 1 [⟨429, "not-a-number"⟩, ⟨200, ""⟩] 50 =
        ⟨[SendError.retryAfterParse "not-a-number"], 1, 50, 0, 0⟩ :=
  ⟨by decide, by decide,
    send_retryAfter_parse_error 100 1 50 "not-a-number" [⟨200, ""⟩]
      (by decide) (by decide)⟩

/-- C2: on a 429 response, when the Retry-After header parses as `n` the
shared interval becomes `min (n seconds) (current + increment)`, when the
header is absent it becomes `min (4 seconds) (current + increment)`, and in
both cases the loop issues another request (the recursion continues on the
rest of the script, with one more request and one more grow counted).  The
bounds keep the int64 duration arithmetic of the Go code overflow-free. -/
theorem send_429_grow_and_retry (inc dec cur n : Int) (hdr : String)
    (rest : List HttpResponse)
    (hcur0 : 0 ≤ cur) (hcur1 : cur < 2 ^ 62)
    (hinc0 : 0 ≤ inc) (hinc1 : inc < 2 ^ 62)
    (hn0 : 0 ≤ n) (hn1 : n * second < 2 ^ 63)
    (hne : hdr ≠ "") (hp : goAtoi hdr = some n) :
    (sendLoop inc dec (⟨429, hdr⟩ :: rest) cur =
      { sendLoop inc dec rest (min (n * second) (cur + inc)) with
        requests := (sendLoop inc dec rest (min (n * second) (cur + inc))).requests + 1,
        grows := (sendLoop inc dec rest (min (n * second) (cur + inc))).grows + 1 }) ∧
    (sendLoop inc dec (⟨429, ""⟩ :: rest) cur =
      { sendLoop inc dec rest (min (4 * second) (cur + inc)) with
        requests := (sendLoop inc dec rest (min (4 * second) (cur + inc))).requests + 1,
        grows := (sendLoop inc dec rest (min (4 * second) (cur + inc))).grows + 1 }) := by
  have hns : 0 ≤ n * second := mul_nonneg hn0 (by norm_num [second])
  have h1 : i64 (n * second) = n * second := i64_eq_self (by omega) hn1
  have h2 : i64 (cur + inc) = cur + inc := i64_eq_self (by omega) (by omega)
  constructor
  · simp [sendLoop, hne, hp, h1, h2, minDuration_pair]
  · simp [sendLoop, h2, minDuration_pair]

theorem send_429_grow_and_retry_witness :
    goAtoi "2" = some 2 ∧ "2" ≠ "" ∧
    (sendLoop 100 1 [⟨429, "2"⟩] 50 =
      { sendLoop 100 1 ([] : List HttpResponse) (min (2 * second) (50 + 100)) with
        requests :=
          (sendLoop 100 1 ([] : List HttpResponse) (min (2 * second) (50 + 100))).requests + 1,
        grows :=
          (sendLoop 100 1 ([] : List HttpResponse) (min (2 * second) (50 + 100))).grows + 1 }) ∧
    (sendLoop 100 1 [⟨429, ""⟩] 50 =
      { sendLoop 100 1 ([] : List HttpResponse) (min (4 * second) (50 + 100)) with
        requests :=
          (sendLoop 100 1 ([] : List HttpResponse) (min (4 * second) (50 + 100))).requests + 1,
        grows :=
          (sendLoop 100 1 ([] : List HttpResponse) (min (4 * second) (50 + 100))).grows + 1 }) :=
  ⟨rfl, by decide,
    (send_429_grow_and_retry 100 1 50 2 "2" [] (by norm_num) (by norm_num) (by norm_num)
      (by norm_num) (by norm_num) (by norm_num [second]) (by decide) rfl).1,
    (send_429_grow_and_retry 100 1 50 2 "2" [] (by norm_num) (by norm_num) (by norm_num)
      (by norm_num) (by norm_num) (by norm_num [second]) (by decide) rfl).2⟩

theorem sendLoop_429_script (inc dec : Int) (script : List HttpResponse)
    (h429 : ∀ r ∈ script, r.statusCode = 429 ∧
      (r.retryAfter = "" ∨ ∃ n, goAtoi r.retryAfter = some n)) :
    ∀ cur, ∃ i, sendLoop inc dec (script ++ [⟨200, ""⟩]) cur =
      ⟨[], script.length + 1, i, script.length, 1⟩ := by
  induction script with
  | nil =>
    intro cur
    exact ⟨(MaxDuration [0, i64 (cur - dec)]).getD 0, by simp [sendLoop]⟩
  | cons r rs ih =>
    intro cur
    obtain ⟨h1, h2⟩ := h429 r (List.mem_cons_self _ _)
    have ihh := ih (fun x hx => h429 x (List.mem_cons_of_mem _ hx))
    rcases h2 with h2 | ⟨n, h2⟩
    · obtain ⟨i, hi⟩ := ihh ((MinDuration [4 * second, i64 (cur + inc)]).getD 0)
      exact ⟨i, by simp [sendLoop, h1, h2, hi]⟩
    · have hne : r.retryAfter ≠ "" := by
        intro h
        rw [h] at h2
        rw [show goAtoi "" = none from rfl] at h2
        exact Option.noConfusion h2
      obtain ⟨i, hi⟩ := ihh ((MinDuration [i64 (n * second), i64 (cur + inc)]).getD 0)
      exact ⟨i, by simp [sendLoop, h1, hne, h2, hi]⟩

/-- C3: on a script of exactly K responses with status 429 (each with a
valid or absent Retry-After header) followed by one 200 response, `Send`
issues exactly K+1 requests, runs the grow update exactly K times, runs the
shrink update exactly once (on the final success), and returns no errors. -/
theorem send_K_429_then_success (inc dec cur : Int) (script : List HttpResponse)
    (h429 : ∀ r ∈ script, r.statusCode = 429 ∧
      (r.retryAfter = "" ∨ ∃ n, goAtoi r.retryAfter = some n)) :
    (sendLoop inc dec (script ++ [⟨200, ""⟩]) cur).errors = [] ∧
    (sendLoop inc dec (script ++ [⟨200, ""⟩]) cur).requests = script.length + 1 ∧
    (sendLoop inc dec (script ++ [⟨200, ""⟩]) cur).grows = script.length ∧
    (sendLoop inc dec (script ++ [⟨200, ""⟩]) cur).shrinks = 1 := by
  obtain ⟨i, hi⟩ := sendLoop_429_script inc dec script h429 cur
  rw [hi]
  exact ⟨rfl, rfl, rfl, rfl⟩

theorem send_K_429_then_success_witness :
    (sendLoop 100 1 ([⟨429, "2"⟩, ⟨429, ""⟩] ++ [⟨200, ""⟩]) 50).errors = [] ∧
    (sendLoop 100 1 ([⟨429, "2"⟩, ⟨429, ""⟩] ++ [⟨200, ""⟩]) 50).requests = 3 ∧
    (sendLoop 100 1 ([⟨429, "2"⟩, ⟨429, ""⟩] ++ [⟨200, ""⟩]) 50).grows = 2 ∧
    (sendLoop 100 1 ([⟨429, "2"⟩, ⟨429, ""⟩] ++ [⟨200, ""⟩]) 50).shrinks = 1 := by
  have h : ∀ r ∈ [(⟨429, "2"⟩ : HttpResponse), ⟨429, ""⟩], r.statusCode = 429 ∧
      (r.retryAfter = "" ∨ ∃ n, goAtoi r.retryAfter = some n) := by
    intro r hr
    rcases List.mem_cons.mp hr with rfl | hr
    · exact ⟨rfl, Or.inr ⟨2, rfl⟩⟩
    · rcases List.mem_cons.mp hr with rfl | hr
      · exact ⟨rfl, Or.inl rfl⟩
      · exact absurd hr (List.not_mem_nil r)
  simpa using send_K_429_then_success 100 1 50 [⟨429, "2"⟩, ⟨429, ""⟩] h

/-- C1 counterexample: the code accepts a negative Retry-After value (Go's
`strconv.Atoi` parses "-1"), and `MinDuration` then selects the negative
duration, so one 429 response carrying `Retry-After: -1` drives the shared
backoff interval to -1 second — the interval is not always non-negative.
The truncated script exposes the interval right after the grow update. -/
theorem interval_negative_cex :
    (sendLoop 100000000 1000000 [⟨429, "-1"⟩] 100000000).interval = -1000000000 ∧
    (sendLoop 100000000 1000000 [⟨429, "-1"⟩] 100000000).interval < 0 := by
  decide

/-- C1 (amended): if the increment, decrement and starting interval are
non-negative and below 2^62 ns, and every response whose Retry-After header
parses yields a value n with `0 ≤ n` and `n` seconds below 2^62 ns, then
after every update step of every response sequence the shared interval stays
non-negative and below the fixed ceiling 2^62 ns.  (Quantifying over all
scripts covers every intermediate state, since a truncated script returns
the interval reached at the truncation point.) -/
theorem interval_nonneg_bounded (inc dec : Int) (script : List HttpResponse)
    (hinc0 : 0 ≤ inc) (hinc1 : inc < 2 ^ 62)
    (hdec0 : 0 ≤ dec) (hdec1 : dec < 2 ^ 62)
    (hra : ∀ r ∈ script, ∀ n, goAtoi r.retryAfter = some n →
      0 ≤ n ∧ n * second < 2 ^ 62) :
    ∀ cur, 0 ≤ cur → cur < 2 ^ 62 →
      0 ≤ (sendLoop inc dec script cur).interval ∧
        (sendLoop inc dec script cur).interval < 2 ^ 62 := by
  induction script with
  | nil =>
    intro cur h0 h1
    exact ⟨h0, h1⟩
  | cons r rs ih =>
    intro cur h0 h1
    have ihh := ih (fun x hx => hra x (List.mem_cons_of_mem _ hx))
    have h2 : i64 (cur + inc) = cur + inc := i64_eq_self (by omega) (by omega)
    by_cases hc : r.statusCode = 429
    · by_cases hh : r.retryAfter = ""
      · have hgoal : (sendLoop inc dec (r :: rs) cur).interval =
            (sendLoop inc dec rs (min (4 * second) (cur + inc))).interval := by
          simp [sendLoop, hc, hh, h2, minDuration_pair]
        rw [hgoal]
        refine ihh _ (le_min (by norm_num [second]) (by omega)) ?_
        exact lt_of_le_of_lt (min_le_left _ _) (by norm_num [second])
      · cases hg : goAtoi r.retryAfter with
        | none =>
          have hgoal : sendLoop inc dec (r :: rs) cur =
              ⟨[SendError.retryAfterParse r.retryAfter], 1, cur, 0, 0⟩ := by
            simp [sendLoop, hc, hh, hg]
          rw [hgoal]
          exact ⟨h0, h1⟩
        | some n =>
          obtain ⟨hn0, hn1⟩ := hra r (List.mem_cons_self _ _) n hg
          have hns : 0 ≤ n * second := mul_nonneg hn0 (by norm_num [second])
          have h3 : i64 (n * second) = n * second := i64_eq_self (by omega) (by omega)
          have hgoal : (sendLoop inc dec (r :: rs) cur).interval =
              (sendLoop inc dec rs (min (n * second) (cur + inc))).interval := by
            simp [sendLoop, hc, hh, hg, h2, h3, minDuration_pair]
          rw [hgoal]
          exact ihh _ (le_min hns (by omega)) (lt_of_le_of_lt (min_le_left _ _) hn1)
    · by_cases h4 : 400 ≤ r.statusCode
      · have hgoal : sendLoop inc dec (r :: rs) cur =
            ⟨[SendError.httpStatus r.statusCode], 1, cur, 0, 0⟩ := by
          simp [sendLoop, hc, h4]
        rw [hgoal]
        exact ⟨h0, h1⟩
      · have h5 : i64 (cur - dec) = cur - dec := i64_eq_self (by omega) (by omega)
        have hgoal : sendLoop inc dec (r :: rs) cur =
            ⟨[], 1, max 0 (cur - dec), 0, 1⟩ := by
          simp [sendLoop, hc, h4, h5, maxDuration_pair]
        rw [hgoal]
        exact ⟨le_max_left _ _, max_lt (by norm_num) (by omega)⟩

theorem interval_nonneg_bounded_witness :
    (0 : Int) ≤ 100 ∧ (100 : Int) < 2 ^ 62 ∧ (0 : Int) ≤ 1 ∧ (1 : Int) < 2 ^ 62 ∧
    (∀ r ∈ [(⟨429, ""⟩ : HttpResponse)], ∀ n, goAtoi r.retryAfter = some n →
      0 ≤ n ∧ n * second < 2 ^ 62) ∧
    (0 : Int) ≤ 50 ∧ (50 : Int) < 2 ^ 62 ∧
    (0 ≤ (sendLoop 100 1 [⟨429, ""⟩] 50).interval ∧
      (sendLoop 100 1 [⟨429, ""⟩] 50).interval < 2 ^ 62) := by
  have hra : ∀ r ∈ [(⟨429, ""⟩ : HttpResponse)], ∀ n, goAtoi r.retryAfter = some n →
      0 ≤ n ∧ n * second < 2 ^ 62 := by
    intro r hr n hg
    rcases List.mem_cons.mp hr with rfl | hr
    · rw [show goAtoi (HttpResponse.mk 429 "").retryAfter = none from rfl] at hg
      exact Option.noConfusion hg
    · exact absurd hr (List.not_mem_nil r)
  exact ⟨by norm_num, by norm_num, by norm_num, by norm_num, hra, by norm_num, by norm_num,
    interval_nonneg_bounded 100 1 [⟨429, ""⟩] (by norm_num) (by norm_num) (by norm_num)
      (by norm_num) hra 50 (by norm_num) (by norm_num)⟩

theorem omitStr_keys_sub {x key v : String}
    (h : x ∈ (omitStr key v).map Prod.fst) : x = key ∧ v ≠ "" := by
  by_cases hv : v = ""
  · rw [hv] at h
    simp [omitStr] at h
  · simp [omitStr, hv] at h
    exact ⟨h, hv⟩

theorem omitBool_keys_sub {x key : String} {v : Bool}
    (h : x ∈ (omitBool key v).map Prod.fst) : x = key ∧ v ≠ false := by
  cases v
  · simp [omitBool] at h
  · simp [omitBool] at h
    exact ⟨h, by decide⟩

theorem attachments_keys_sub {x : String} {p : Payload}
    (h : x ∈ ((if p.Attachments = [] then ([] : List (String × Json))
      else [("attachments", Json.arr (p.Attachments.map marshalAttachment))])).map Prod.fst) :
    x = "attachments" ∧ p.Attachments ≠ [] := by
  by_cases ha : p.Attachments = []
  · simp [ha] at h
  · simp [ha] at h
    exact ⟨h, ha⟩

theorem mem_keys_marshalPayload {x : String} {p : Payload}
    (h : x ∈ jsonKeys (marshalPayload p)) :
    (x = "parse" ∧ p.Parse ≠ "") ∨ (x = "username" ∧ p.Username ≠ "") ∨
    (x = "icon_url" ∧ p.IconUrl ≠ "") ∨ (x = "icon_emoji" ∧ p.IconEmoji ≠ "") ∨
    (x = "channel" ∧ p.Channel ≠ "") ∨ (x = "text" ∧ p.Text ≠ "") ∨
    (x = "link_names" ∧ p.LinkNames ≠ "") ∨ (x = "attachments" ∧ p.Attachments ≠ []) ∨
    (x = "unfurl_links" ∧ p.UnfurlLinks ≠ false) ∨
    (x = "unfurl_media" ∧ p.UnfurlMedia ≠ false) ∨ (x = "mrkdwn" ∧ p.Markdown ≠ false) := by
  simp only [jsonKeys, marshalPayload, List.map_append, List.mem_append] at h
  rcases h with ((((((((((h | h) | h) | h) | h) | h) | h) | h) | h) | h) | h)
  · exact Or.inl (omitStr_keys_sub h)
  · exact Or.inr (Or.inl (omitStr_keys_sub h))
  · exact Or.inr (Or.inr (Or.inl (omitStr_keys_sub h)))
  · exact Or.inr (Or.inr (Or.inr (Or.inl (omitStr_keys_sub h))))
  · exact Or.inr (Or.inr (Or.inr (Or.inr (Or.inl (omitStr_keys_sub h)))))
  · exact Or.inr (Or.inr (Or.inr (Or.inr (Or.inr (Or.inl (omitStr_keys_sub h))))))
  · exact Or.inr (Or.inr (Or.inr (Or.inr (Or.inr (Or.inr (Or.inl (omitStr_keys_sub h)))))))
  · exact Or.inr (Or.inr (Or.inr (Or.inr (Or.inr (Or.inr (Or.inr (Or.inl
      (attachments_keys_sub h))))))))
  · exact Or.inr (Or.inr (Or.inr (Or.inr (Or.inr (Or.inr (Or.inr (Or.inr (Or.inl
      (omitBool_keys_sub h)))))))))
  · exact Or.inr (Or.inr (Or.inr (Or.inr (Or.inr (Or.inr (Or.inr (Or.inr (Or.inr (Or.inl
      (omitBool_keys_sub h))))))))))
  · exact Or.inr (Or.inr (Or.inr (Or.inr (Or.inr (Or.inr (Or.inr (Or.inr (Or.inr (Or.inr
      (omitBool_keys_sub h))))))))))

/-- C6: every `omitempty` scalar field of Payload holding its zero value is
omitted from the serialized object (in particular a payload with no
attachments serializes without the `attachments` key), while every unset
pointer-typed optional field of an Attachment is emitted as an explicit
`null` member — the omitted-versus-null asymmetry, for all payloads and
attachments. -/
theorem marshal_omit_vs_null (p : Payload) (a : Attachment) :
    (p.Parse = "" → "parse" ∉ jsonKeys (marshalPayload p)) ∧
    (p.Username = "" → "username" ∉ jsonKeys (marshalPayload p)) ∧
    (p.IconUrl = "" → "icon_url" ∉ jsonKeys (marshalPayload p)) ∧
    (p.IconEmoji = "" → "icon_emoji" ∉ jsonKeys (marshalPayload p)) ∧
    (p.Channel = "" → "channel" ∉ jsonKeys (marshalPayload p)) ∧
    (p.Text = "" → "text" ∉ jsonKeys (marshalPayload p)) ∧
    (p.LinkNames = "" → "link_names" ∉ jsonKeys (marshalPayload p)) ∧
    (p.Attachments = [] → "attachments" ∉ jsonKeys (marshalPayload p)) ∧
    (p.UnfurlLinks = false → "unfurl_links" ∉ jsonKeys (marshalPayload p)) ∧
    (p.UnfurlMedia = false → "unfurl_media" ∉ jsonKeys (marshalPayload p)) ∧
    (p.Markdown = false → "mrkdwn" ∉ jsonKeys (marshalPayload p)) ∧
    (a.Fallback = none → jsonLookup (marshalAttachment a) "fallback" = some Json.null) ∧
    (a.Color = none → jsonLookup (marshalAttachment a) "color" = some Json.null) ∧
    (a.PreText = none → jsonLookup (marshalAttachment a) "pretext" = some Json.null) ∧
    (a.AuthorName = none → jsonLookup (marshalAttachment a) "author_name" = some Json.null) ∧
    (a.AuthorLink = none → jsonLookup (marshalAttachment a) "author_link" = some Json.null) ∧
    (a.AuthorIcon = none → jsonLookup (marshalAttachment a) "author_icon" = some Json.null) ∧
    (a.Title = none → jsonLookup (marshalAttachment a) "title" = some Json.null) ∧
    (a.TitleLink = none → jsonLookup (marshalAttachment a) "title_link" = some Json.null) ∧
    (a.Text = none → jsonLookup (marshalAttachment a) "text" = some Json.null) ∧
    (a.ImageUrl = none → jsonLookup (marshalAttachment a) "image_url" = some Json.null) ∧
    (a.Footer = none → jsonLookup (marshalAttachment a) "footer" = some Json.null) ∧
    (a.FooterIcon = none → jsonLookup (marshalAttachment a) "footer_icon" = some Json.null) ∧
    (a.Timestamp = none → jsonLookup (marshalAttachment a) "ts" = some Json.null) ∧
    (a.MarkdownIn = none → jsonLookup (marshalAttachment a) "mrkdwn_in" = some Json.null) ∧
    (a.CallbackID = none → jsonLookup (marshalAttachment a) "callback_id" = some Json.null) ∧
    (a.ThumbnailUrl = none → jsonLookup (marshalAttachment a) "thumb_url" = some Json.null) := by
  refine ⟨?_, ?_, ?_, ?_, ?_, ?_, ?_, ?_, ?_, ?_, ?_,
    ?_, ?_, ?_, ?_, ?_, ?_, ?_, ?_, ?_, ?_, ?_, ?_, ?_, ?_, ?_, ?_⟩
  · intro h hmem
    have := mem_keys_marshalPayload hmem
    simp [h] at this
  · intro h hmem
    have := mem_keys_marshalPayload hmem
    simp [h] at this
  · intro h hmem
    have := mem_keys_marshalPayload hmem
    simp [h] at this
  · intro h hmem
    have := mem_keys_marshalPayload hmem
    simp [h] at this
  · intro h hmem
    have := mem_keys_marshalPayload hmem
    simp [h] at this
  · intro h hmem
    have := mem_keys_marshalPayload hmem
    simp [h] at this
  · intro h hmem
    have := mem_keys_marshalPayload hmem
    simp [h] at this
  · intro h hmem
    have := mem_keys_marshalPayload hmem
    simp [h] at this
  · intro h hmem
    have := mem_keys_marshalPayload hmem
    simp [h] at this
  · intro h hmem
    have := mem_keys_marshalPayload hmem
    simp [h] at this
  · intro h hmem
    have := mem_keys_marshalPayload hmem
    simp [h] at this
  · intro h
    rw [show jsonLookup (marshalAttachment a) "fallback" =
      some (jNullable Json.str a.Fallback) from rfl, h]
    rfl
  · intro h
    rw [show jsonLookup (marshalAttachment a) "color" =
      some (jNullable Json.str a.Color) from rfl, h]
    rfl
  · intro h
    rw [show jsonLookup (marshalAttachment a) "pretext" =
      some (jNullable Json.str a.PreText) from rfl, h]
    rfl
  · intro h
    rw [show jsonLookup (marshalAttachment a) "author_name" =
      some (jNullable Json.str a.AuthorName) from rfl, h]
    rfl
  · intro h
    rw [show jsonLookup (marshalAttachment a) "author_link" =
      some (jNullable Json.str a.AuthorLink) from rfl, h]
    rfl
  · intro h
    rw [show jsonLookup (marshalAttachment a) "author_icon" =
      some (jNullable Json.str a.AuthorIcon) from rfl, h]
    rfl
  · intro h
    rw [show jsonLookup (marshalAttachment a) "title" =
      some (jNullable Json.str a.Title) from rfl, h]
    rfl
  · intro h
    rw [show jsonLookup (marshalAttachment a) "title_link" =
      some (jNullable Json.str a.TitleLink) from rfl, h]
    rfl
  · intro h
    rw [show jsonLookup (marshalAttachment a) "text" =
      some (jNullable Json.str a.Text) from rfl, h]
    rfl
  · intro h
    rw [show jsonLookup (marshalAttachment a) "image_url" =
      some (jNullable Json.str a.ImageUrl) from rfl, h]
    rfl
  · intro h
    rw [show jsonLookup (marshalAttachment a) "footer" =
      some (jNullable Json.str a.Footer) from rfl, h]
    rfl
  · intro h
    rw [show jsonLookup (marshalAttachment a) "footer_icon" =
      some (jNullable Json.str a.FooterIcon) from rfl, h]
    rfl
  · intro h
    rw [show jsonLookup (marshalAttachment a) "ts" =
      some (jNullable Json.num a.Timestamp) from rfl, h]
    rfl
  · intro h
    rw [show jsonLookup (marshalAttachment a) "mrkdwn_in" =
      some (jNullable (fun l => Json.arr (l.map Json.str)) a.MarkdownIn) from rfl, h]
    rfl
  · intro h
    rw [show jsonLookup (marshalAttachment a) "callback_id" =
      some (jNullable Json.str a.CallbackID) from rfl, h]
    rfl
  · intro h
    rw [show jsonLookup (marshalAttachment a) "thumb_url" =
      some (jNullable Json.str a.ThumbnailUrl) from rfl, h]
    rfl

theorem marshal_omit_vs_null_witness :
    "attachments" ∉ jsonKeys
      (marshalPayload ⟨"", "", "", "", "", "hi", "", [], false, false, false⟩) ∧
    jsonLookup (marshalAttachment emptyAttachment) "fallback" = some Json.null :=
  ⟨(marshal_omit_vs_null ⟨"", "", "", "", "", "hi", "", [], false, false, false⟩
      emptyAttachment).2.2.2.2.2.2.2.1 rfl,
   (marshal_omit_vs_null ⟨"", "", "", "", "", "hi", "", [], false, false, false⟩
      emptyAttachment).2.2.2.2.2.2.2.2.2.2.2.1 rfl⟩

/-- C7: the reset step run after each periodic report zeroes the count of
every key present in the tally and removes no key: the key list is unchanged
and every stored value is zero. -/
theorem resetStatusCodes_spec (m : List (Int × Nat)) :
    (resetStatusCodes m).map Prod.fst = m.map Prod.fst ∧
      ∀ p ∈ resetStatusCodes m, p.2 = 0 := by
  constructor
  · simp [resetStatusCodes]
  · intro p hp
    rcases List.mem_map.mp hp with ⟨q, hq, rfl⟩
    rfl

theorem resetStatusCodes_spec_witness :
    (resetStatusCodes [(200, 3), (429, 5)]).map Prod.fst =
        [((200 : Int), (3 : Nat)), (429, 5)].map Prod.fst ∧
      ∀ p ∈ resetStatusCodes [(200, 3), (429, 5)], p.2 = 0 :=
  resetStatusCodes_spec [(200, 3), (429, 5)]

theorem foldl_addField_fields (fs : List Field) :
    ∀ (a : Attachment) (init : List Field), a.Fields = some init →
      (fs.foldl AddField a).Fields = some (init ++ fs) := by
  induction fs with
  | nil =>
    intro a init h
    simpa using h
  | cons f fs2 ih =>
    intro a init h
    simp only [List.foldl_cons]
    rw [ih (AddField a f) (init ++ [f]) (by simp [AddField, h])]
    simp

theorem foldl_addAction_actions (acts : List Action) :
    ∀ (a : Attachment) (init : List Action), a.Actions = some init →
      (acts.foldl AddAction a).Actions = some (init ++ acts) := by
  induction acts with
  | nil =>
    intro a init h
    simpa using h
  | cons x xs ih =>
    intro a init h
    simp only [List.foldl_cons]
    rw [ih (AddAction a x) (init ++ [x]) (by simp [AddAction, h])]
    simp

theorem foldl_addField_actions (fs : List Field) :
    ∀ a : Attachment, (fs.foldl AddField a).Actions = a.Actions := by
  induction fs with
  | nil => intro a; rfl
  | cons f fs2 ih =>
    intro a
    simp only [List.foldl_cons]
    rw [ih]
    rfl

theorem foldl_addAction_fields (acts : List Action) :
    ∀ a : Attachment, (acts.foldl AddAction a).Fields = a.Fields := by
  induction acts with
  | nil => intro a; rfl
  | cons x xs ih =>
    intro a
    simp only [List.foldl_cons]
    rw [ih]
    rfl

/-- C8 counterexample: the claim instantiated with the zero-value attachment
and zero AddField/AddAction calls asserts a serialized `fields` array of
length 0, but Go marshals the nil Fields slice as `null`, not as an empty
array. -/
theorem addField_serialization_cex :
    jsonLookup (marshalAttachment emptyAttachment) "fields" = some Json.null ∧
      some Json.null ≠ some (Json.arr (([] : List Field).map marshalField)) := by
  constructor
  · rfl
  · intro h
    exact Json.noConfusion (Option.some.inj h)

/-- C8 (amended): for every attachment whose Fields and Actions start nil
(the zero value) and every non-empty sequence of N AddField calls followed
by a non-empty sequence of M AddAction calls, the serialized attachment's
`fields` member is the array of exactly those N fields in append order and
its `actions` member is the array of exactly those M actions in append
order. -/
theorem addField_addAction_serialization (fs : List Field) (acts : List Action)
    (hf : fs ≠ []) (ha : acts ≠ []) :
    jsonLookup (marshalAttachment
        (acts.foldl AddAction (fs.foldl AddField emptyAttachment))) "fields" =
      some (Json.arr (fs.map marshalField)) ∧
    jsonLookup (marshalAttachment
        (acts.foldl AddAction (fs.foldl AddField emptyAttachment))) "actions" =
      some (Json.arr (acts.map marshalAction)) := by
  obtain ⟨f, fs2, rfl⟩ := List.exists_cons_of_ne_nil hf
  obtain ⟨x, xs, rfl⟩ := List.exists_cons_of_ne_nil ha
  have hbf : ((f :: fs2).foldl AddField emptyAttachment).Fields = some (f :: fs2) := by
    simp only [List.foldl_cons]
    rw [foldl_addField_fields fs2 (AddField emptyAttachment f) [f] rfl]
    simp
  have hba : ((f :: fs2).foldl AddField emptyAttachment).Actions = none := by
    rw [foldl_addField_actions]
    rfl
  have hcf : ((x :: xs).foldl AddAction
      ((f :: fs2).foldl AddField emptyAttachment)).Fields = some (f :: fs2) := by
    rw [foldl_addAction_fields]
    exact hbf
  have hca : ((x :: xs).foldl AddAction
      ((f :: fs2).foldl AddField emptyAttachment)).Actions = some (x :: xs) := by
    have h1 : (AddAction ((f :: fs2).foldl AddField emptyAttachment) x).Actions
        = some [x] := by
      rw [show (AddAction ((f :: fs2).foldl AddField emptyAttachment) x).Actions
          = some (((f :: fs2).foldl AddField emptyAttachment).Actions.getD [] ++ [x])
        from rfl, hba]
      rfl
    calc ((x :: xs).foldl AddAction ((f :: fs2).foldl AddField emptyAttachment)).Actions
        = (xs.foldl AddAction
            (AddAction ((f :: fs2).foldl AddField emptyAttachment) x)).Actions := rfl
      _ = some ([x] ++ xs) := foldl_addAction_actions xs _ [x] h1
      _ = some (x :: xs) := by simp
  constructor
  · rw [show jsonLookup (marshalAttachment ((x :: xs).foldl AddAction
        ((f :: fs2).foldl AddField emptyAttachment))) "fields" =
      some (jNullable (fun l => Json.arr (l.map marshalField))
        ((x :: xs).foldl AddAction
          ((f :: fs2).foldl AddField emptyAttachment)).Fields) from rfl, hcf]
    rfl
  · rw [show jsonLookup (marshalAttachment ((x :: xs).foldl AddAction
        ((f :: fs2).foldl AddField emptyAttachment))) "actions" =
      some (jNullable (fun l => Json.arr (l.map marshalAction))
        ((x :: xs).foldl AddAction
          ((f :: fs2).foldl AddField emptyAttachment)).Actions) from rfl, hca]
    rfl

theorem addField_addAction_serialization_witness :
    ([(⟨"t", "v", false⟩ : Field)] ≠ []) ∧ ([(⟨"button", "x", "u", "s"⟩ : Action)] ≠ []) ∧
    (jsonLookup (marshalAttachment
        ([(⟨"button", "x", "u", "s"⟩ : Action)].foldl AddAction
          ([(⟨"t", "v", false⟩ : Field)].foldl AddField emptyAttachment))) "fields" =
      some (Json.arr ([(⟨"t", "v", false⟩ : Field)].map marshalField)) ∧
    jsonLookup (marshalAttachment
        ([(⟨"button", "x", "u", "s"⟩ : Action)].foldl AddAction
          ([(⟨"t", "v", false⟩ : Field)].foldl AddField emptyAttachment))) "actions" =
      some (Json.arr ([(⟨"button", "x", "u", "s"⟩ : Action)].map marshalAction))) :=
  ⟨by decide, by decide,
    addField_addAction_serialization [⟨"t", "v", false⟩] [⟨"button", "x", "u", "s"⟩]
      (by decide) (by decide)⟩

/-- C9: calling StopTicker while the ticker lifecycle is in the Idle state
(never started, so the package-level ticker pointer is still nil) crashes
with a nil dereference rather than returning normally or being a no-op. -/
theorem stopTicker_idle_crashes :
    StopTicker idleTicker = StopOutcome.panicNilDeref ∧
      StopTicker idleTicker ≠ StopOutcome.stopped := by
  decide

end Slack
